import Mathlib

/-!
Verification of the MCP client-side session/transport management layer:
a shallow embedding of the circuit breaker, retry-with-backoff executor,
multi-client manager call paths, and the stdio client shutdown logic,
with theorems about their behaviour.
-/

/-- The three circuit-breaker states (`_state` in `resilience.py`). -/
inductive CBState
  | CLOSED
  | OPEN
  | HALF_OPEN
deriving DecidableEq, Repr

/-- The mutable state of `CircuitBreaker` in `resilience.py` together with its
configuration.  Timestamps are modelled as integers (the code uses
`time.monotonic()`). -/
structure CircuitBreaker where
  failure_threshold : Nat
  reset_timeout : Nat
  failures : Nat
  last_failure_time : Int
  state : CBState
deriving DecidableEq, Repr

/-- `CircuitBreaker.__init__`: zero failures, zero last-failure time, CLOSED. -/
def CircuitBreaker.init (th rt : Nat) : CircuitBreaker :=
  { failure_threshold := th, reset_timeout := rt, failures := 0,
    last_failure_time := 0, state := .CLOSED }

/-- `CircuitBreaker._check_state_transition`: lazily move OPEN to HALF_OPEN once
strictly more than `reset_timeout` has elapsed since the last failure. -/
def CircuitBreaker.check_state_transition (cb : CircuitBreaker) (now : Int) : CircuitBreaker :=
  if cb.state = .OPEN ∧ now - cb.last_failure_time > (cb.reset_timeout : Int) then
    { cb with state := .HALF_OPEN }
  else cb

/-- `CircuitBreaker.record_success`: a HALF_OPEN trial success closes the
circuit; the failure counter is reset in every state. -/
def CircuitBreaker.record_success (cb : CircuitBreaker) : CircuitBreaker :=
  { cb with state := if cb.state = .HALF_OPEN then .CLOSED else cb.state,
            failures := 0 }

/-- `CircuitBreaker.record_failure`: increment the counter, stamp the failure
time, and open the circuit on a HALF_OPEN trial failure or once the counter
reaches the threshold. -/
def CircuitBreaker.record_failure (cb : CircuitBreaker) (now : Int) : CircuitBreaker :=
  { cb with failures := cb.failures + 1,
            last_failure_time := now,
            state := if cb.state = .HALF_OPEN ∨ cb.failures + 1 ≥ cb.failure_threshold
                     then .OPEN else cb.state }

/-- The locked head of `CircuitBreaker.__call__`: run the lazy state check and
either reject (returning the clamped estimated remaining wait written into the
`CircuitBreakerOpenError`) or admit the call.  `none` means the wrapped
operation will be invoked. -/
def CircuitBreaker.phase1 (cb : CircuitBreaker) (now : Int) : CircuitBreaker × Option Int :=
  let cb1 := cb.check_state_transition now
  if cb1.state = .OPEN then
    (cb1, some (max 0 ((cb1.reset_timeout : Int) - (now - cb1.last_failure_time))))
  else (cb1, none)

/-- Outcome of one pass through `CircuitBreaker.__call__`: either the call was
rejected while OPEN (carrying the remaining wait estimate) or the wrapped
operation was invoked with the given success/failure outcome. -/
inductive CallResult
  | rejected (remaining : Int)
  | invoked (success : Bool)
deriving DecidableEq, Repr

/-- Number of times the wrapped operation ran in one breaker pass. -/
def CallResult.invocations : CallResult → Nat
  | .rejected _ => 0
  | .invoked _ => 1

/-- One full sequential pass through `CircuitBreaker.__call__` at time `now`,
where `outcome` tells whether the wrapped operation would succeed. -/
def CircuitBreaker.call (cb : CircuitBreaker) (now : Int) (outcome : Bool) :
    CircuitBreaker × CallResult :=
  match cb.phase1 now with
  | (cb1, some r) => (cb1, .rejected r)
  | (cb1, none) =>
    if outcome then (cb1.record_success, .invoked true)
    else (cb1.record_failure now, .invoked false)

/-- Run a breaker over a trace of attempted calls `(time, outcome)`.  Returns
the final breaker together with the chronological list of outcomes that were
actually recorded (rejected calls record nothing). -/
def CircuitBreaker.run (cb : CircuitBreaker) : List (Int × Bool) → CircuitBreaker × List Bool
  | [] => (cb, [])
  | (t, o) :: rest =>
    match cb.call t o with
    | (cb1, .invoked b) =>
      let r := cb1.run rest
      (r.1, b :: r.2)
    | (cb1, .rejected _) => cb1.run rest

/-- Number of consecutive failures since the last success in a chronological
outcome list, starting from `acc` failures already accumulated. -/
def consecFrom (acc : Nat) : List Bool → Nat
  | [] => acc
  | true :: r => consecFrom 0 r
  | false :: r => consecFrom (acc + 1) r

/-- Invariant tying the breaker state to the failure counter between calls:
the threshold is positive, the inter-call state is CLOSED or OPEN, and the
circuit is CLOSED exactly when the counter is below the threshold. -/
def CBInv (cb : CircuitBreaker) : Prop :=
  1 ≤ cb.failure_threshold ∧
  (cb.state = .CLOSED ∨ cb.state = .OPEN) ∧
  (cb.failures < cb.failure_threshold ↔ cb.state = .CLOSED)

/-- Error kinds appearing in the resilience layer (`asyncio.TimeoutError`,
`ConnectionError`, `IOError`, and any other exception class). -/
inductive PyError
  | timeoutErr
  | connectionErr
  | ioErr
  | otherErr
deriving DecidableEq, Repr

/-- The default `catch_exceptions` tuple of `retry_with_backoff`:
`(asyncio.TimeoutError, ConnectionError, IOError)`. -/
def defaultCatch : PyError → Bool
  | .timeoutErr => true
  | .connectionErr => true
  | .ioErr => true
  | .otherErr => false

/-- The loop body of `retry_with_backoff` in `resilience.py`.  `op i` is the
outcome of the `i`-th invocation of the wrapped operation, `left` the number
of loop iterations remaining (`max_retries + 1 - i` at entry `i`), `jit i`
the value drawn by `random.uniform(0, delay * jitter)` before retry `i + 1`.
Returns the final outcome, the number of invocations of `op`, and the list of
sleep durations `min(delay * 2^i + jit i, max_delay)` taken between attempts.
The `left = 0` base case is dead code (the entry point passes
`max_retries + 1 ≥ 1`). -/
def retryGo (op : Nat → Except PyError Nat) (catchE : PyError → Bool)
    (delay max_delay : ℚ) (jit : Nat → ℚ) :
    Nat → Nat → Except PyError Nat × Nat × List ℚ
  | 0, _ => (.error .otherErr, 0, [])
  | left + 1, i =>
    match op i with
    | .ok v => (.ok v, 1, [])
    | .error e =>
      if catchE e then
        if left = 0 then (.error e, 1, [])
        else
          let r := retryGo op catchE delay max_delay jit left (i + 1)
          (r.1, r.2.1 + 1, min (delay * 2 ^ i + jit i) max_delay :: r.2.2)
      else (.error e, 1, [])

/-- `retry_with_backoff(func, max_retries, initial_delay, max_delay, jitter,
catch_exceptions)`: the `for i in range(max_retries + 1)` loop, with the
jitter draws supplied by the oracle `jit`. -/
def retry_with_backoff (op : Nat → Except PyError Nat) (max_retries : Nat)
    (initial_delay max_delay : ℚ) (jit : Nat → ℚ) (catchE : PyError → Bool) :
    Except PyError Nat × Nat × List ℚ :=
  retryGo op catchE initial_delay max_delay jit (max_retries + 1) 0

/-- The sleep schedule the spec prescribes between retry attempts, written
from the spec's words: before retry `i + 1` the executor sleeps
`min(initialDelay * 2^i + uniform(0, initialDelay * jitter), maxDelay)`,
with the uniform draws supplied by the oracle `jit`.  `specSleeps d maxd jit
k i` is the schedule for `k` further sleeps starting at attempt index `i`. -/
def specSleeps (d maxd : ℚ) (jit : Nat → ℚ) : Nat → Nat → List ℚ
  | 0, _ => []
  | k + 1, i => min (d * 2 ^ i + jit i) maxd :: specSleeps d maxd jit k (i + 1)

/-- The two client kinds dispatched on in `MultiClientManager.call_tool`:
`StdioMCPClient` (local subprocess) and `PlaceholderRemoteClient`. -/
inductive ClientKind
  | localStdio
  | remotePlaceholder
deriving DecidableEq, Repr

/-- The content carried by the `CallToolResult` that `call_tool` returns:
the wrapped call's payload on success, or one of the three synthesized
failure messages. -/
inductive CTContent
  | fromCall (v : Nat)
  | cbOpenMsg (remaining : Int)
  | timeoutMsg
  | errMsg (e : PyError)
deriving DecidableEq, Repr

/-- The `CallToolResult` value surfaced by `MultiClientManager.call_tool`. -/
structure CTResult where
  success : Bool
  content : CTContent
deriving DecidableEq, Repr

/-- `MultiClientManager.call_tool` for a resolved target with a configured
breaker.  `op i` is the outcome of the `i`-th invocation of
`asyncio.wait_for(client.call_tool(...), DEFAULT_TOOL_CALL_TIMEOUT)`
(a `.error .timeoutErr` models the timeout firing).  Remote placeholder
clients are wrapped in `retry_with_backoff(max_retries=3)` inside the
breaker; local clients are wrapped in the breaker alone.  Returns the updated
breaker, the structured result, and the number of invocations of `op`. -/
def call_tool (kind : ClientKind) (cb : CircuitBreaker) (now : Int)
    (op : Nat → Except PyError Nat) (jit : Nat → ℚ) :
    CircuitBreaker × CTResult × Nat :=
  match cb.phase1 now with
  | (cb1, some r) => (cb1, { success := false, content := .cbOpenMsg r }, 0)
  | (cb1, none) =>
    let run : Except PyError Nat × Nat × List ℚ :=
      match kind with
      | .remotePlaceholder => retry_with_backoff op 3 1 10 jit defaultCatch
      | .localStdio => (op 0, 1, [])
    match run with
    | (.ok v, n, _) => (cb1.record_success, { success := true, content := .fromCall v }, n)
    | (.error e, n, _) =>
      let cb2 := cb1.record_failure now
      if e = .timeoutErr then
        (cb2.record_failure now, { success := false, content := .timeoutMsg }, n)
      else
        (cb2.record_failure now, { success := false, content := .errMsg e }, n)

/-- A tool descriptor, identified by its name. -/
structure Tool where
  name : Nat
deriving DecidableEq, Repr

/-- Behaviour of one server's `list_tools()` call under its timeout wrapper. -/
inductive ListBehavior
  | healthy (tools : List Tool)
  | timesOut
  | transportErr
deriving DecidableEq, Repr

/-- One configured server as seen by `MultiClientManager.list_tools`: its
breaker, whether it is a stdio client, whether its session is connected, and
how its wrapped `list_tools()` call behaves. -/
structure ServerEntry where
  cb : CircuitBreaker
  isStdio : Bool
  connected : Bool
  behavior : ListBehavior
deriving DecidableEq, Repr

/-- The per-server body of `MultiClientManager.list_tools`: skip servers whose
breaker is OPEN and stdio clients with no session (no breaker interaction);
otherwise run the breaker-wrapped, timeout-bounded `list_tools()`.  A success
records a success and contributes the tools; a timeout or transport error is
recorded once inside `CircuitBreaker.__call__` and once more in the except
handler of `_list_tools_with_cb_and_timeout`, and contributes nothing; a
breaker-open rejection contributes nothing and records nothing. -/
def listToolsServer (now : Int) (e : ServerEntry) : Option (List Tool) × CircuitBreaker :=
  if e.cb.state = .OPEN then (none, e.cb)
  else if e.isStdio ∧ ¬ e.connected then (none, e.cb)
  else
    match e.cb.phase1 now with
    | (cb1, some _) => (none, cb1)
    | (cb1, none) =>
      match e.behavior with
      | .healthy ts => (some ts, cb1.record_success)
      | .timesOut => (none, (cb1.record_failure now).record_failure now)
      | .transportErr => (none, (cb1.record_failure now).record_failure now)

/-- The aggregation loop of `MultiClientManager.list_tools`: gather every
per-server result, skip the entries that came back as exceptions, and extend
the flat tool list with the rest.  Total: no exception escapes. -/
def list_tools (now : Int) : List ServerEntry → List Tool
  | [] => []
  | e :: rest =>
    (match (listToolsServer now e).1 with
     | some ts => ts
     | none => []) ++ list_tools now rest

/-- The breakers after a `list_tools` fan-out (each task updates only its own
server's breaker). -/
def list_tools_breakers (now : Int) (servers : List ServerEntry) : List CircuitBreaker :=
  servers.map (fun e => (listToolsServer now e).2)

/-- Actions `StdioMCPClient.disconnect` performs on the subprocess, in order. -/
inductive ProcAction
  | terminate
  | waitGrace (timeoutSeconds : Nat)
  | kill
  | waitReap
deriving DecidableEq, Repr

/-- The subprocess handle: `returncode` is `none` while the process is alive;
`exitsInGrace` tells whether `wait()` returns within the 5-second grace
period after `terminate()`. -/
structure ProcHandle where
  returncode : Option Int
  exitsInGrace : Bool
deriving DecidableEq, Repr

/-- The `StdioMCPClient` handle state: optional process, and whether a session
object is held. -/
structure StdioClient where
  proc : Option ProcHandle
  session : Bool
deriving DecidableEq, Repr

/-- `StdioMCPClient.disconnect`: on a live process, terminate, wait up to the
5-second grace period, and kill-then-reap only if the wait timed out, clearing
both handles in the `finally` block; otherwise clear a leftover session if one
exists.  Returns the new state and the ordered subprocess actions taken. -/
def StdioClient.disconnect (c : StdioClient) : StdioClient × List ProcAction :=
  match c.proc with
  | some p =>
    if p.returncode = none then
      if p.exitsInGrace then
        ({ proc := none, session := false }, [.terminate, .waitGrace 5])
      else
        ({ proc := none, session := false }, [.terminate, .waitGrace 5, .kill, .waitReap])
    else if c.session then ({ proc := c.proc, session := false }, [])
    else (c, [])
  | none =>
    if c.session then ({ proc := none, session := false }, []) else (c, [])

/-- The manager state relevant to `MultiClientManager.__aexit__`: the client
map (keyed by server index) and the per-server breakers. -/
structure ManagerState where
  clients : List Nat
  breakers : List CircuitBreaker
deriving DecidableEq, Repr

/-- `MultiClientManager.__aexit__` after the exit stack is closed: call
`record_success` on every breaker ("Force close any open circuits") and clear
the client map. -/
def ManagerState.aexit (m : ManagerState) : ManagerState :=
  { clients := [], breakers := m.breakers.map CircuitBreaker.record_success }

/-! ## Helper lemmas about single breaker calls -/

/-- A call against a breaker that is not OPEN invokes the operation; on
success the breaker records a success. -/
lemma call_not_open_true (cb : CircuitBreaker) (t : Int) (h : cb.state ≠ .OPEN) :
    cb.call t true = (cb.record_success, .invoked true) := by
  simp [CircuitBreaker.call, CircuitBreaker.phase1, CircuitBreaker.check_state_transition, h]

/-- A call against a breaker that is not OPEN invokes the operation; on
failure the breaker records a failure. -/
lemma call_not_open_false (cb : CircuitBreaker) (t : Int) (h : cb.state ≠ .OPEN) :
    cb.call t false = (cb.record_failure t, .invoked false) := by
  simp [CircuitBreaker.call, CircuitBreaker.phase1, CircuitBreaker.check_state_transition, h]

/-- A call against an OPEN breaker before the reset timeout has elapsed is
rejected and leaves the breaker untouched. -/
lemma call_open_fresh (cb : CircuitBreaker) (t : Int) (o : Bool) (h : cb.state = .OPEN)
    (h2 : ¬ t - cb.last_failure_time > (cb.reset_timeout : Int)) :
    cb.call t o = (cb, .rejected (max 0 ((cb.reset_timeout : Int) - (t - cb.last_failure_time)))) := by
  simp [CircuitBreaker.call, CircuitBreaker.phase1, CircuitBreaker.check_state_transition, h, h2]

/-- A call against an OPEN breaker after the reset timeout: the HALF_OPEN
trial succeeds and the circuit closes with the counter reset. -/
lemma call_open_elapsed_true (cb : CircuitBreaker) (t : Int) (h : cb.state = .OPEN)
    (h2 : t - cb.last_failure_time > (cb.reset_timeout : Int)) :
    cb.call t true = ({ cb with state := .CLOSED, failures := 0 }, .invoked true) := by
  simp [CircuitBreaker.call, CircuitBreaker.phase1, CircuitBreaker.check_state_transition, h, h2,
    CircuitBreaker.record_success]

/-- A call against an OPEN breaker after the reset timeout: the HALF_OPEN
trial fails and the circuit reopens with a fresh failure stamp. -/
lemma call_open_elapsed_false (cb : CircuitBreaker) (t : Int) (h : cb.state = .OPEN)
    (h2 : t - cb.last_failure_time > (cb.reset_timeout : Int)) :
    cb.call t false =
      ({ cb with state := .OPEN, failures := cb.failures + 1, last_failure_time := t },
       .invoked false) := by
  simp [CircuitBreaker.call, CircuitBreaker.phase1, CircuitBreaker.check_state_transition, h, h2,
    CircuitBreaker.record_failure]

/-- Preservation of the breaker invariant over a call trace, together with
exact tracking of the failure counter by the consecutive-failure count of the
recorded outcomes. -/
lemma cbRun_spec (l : List (Int × Bool)) : ∀ cb : CircuitBreaker, CBInv cb →
    CBInv (cb.run l).1 ∧ (cb.run l).1.failure_threshold = cb.failure_threshold ∧
    (cb.run l).1.failures = consecFrom cb.failures (cb.run l).2 := by
  induction l with
  | nil => exact fun cb h => ⟨h, rfl, rfl⟩
  | cons p rest ih =>
    intro cb h
    obtain ⟨t, o⟩ := p
    obtain ⟨hT, hCO, hiff⟩ := h
    rcases hCO with hS | hS
    · -- CLOSED between calls
      have hne : cb.state ≠ .OPEN := by rw [hS]; intro hc; cases hc
      cases o
      · -- recorded failure
        have hc := call_not_open_false cb t hne
        have hrun : cb.run ((t, false) :: rest) =
            (((cb.record_failure t).run rest).1, false :: ((cb.record_failure t).run rest).2) := by
          simp [CircuitBreaker.run, hc]
        have hInv1 : CBInv (cb.record_failure t) := by
          refine ⟨hT, ?_, ?_⟩ <;>
            simp only [CircuitBreaker.record_failure, hS]
          · by_cases hge : cb.failures + 1 ≥ cb.failure_threshold <;> simp [hge]
          · by_cases hge : cb.failures + 1 ≥ cb.failure_threshold
            · simp [hge]
            · simp [hge]
              omega
        obtain ⟨ha, hb, hcnt⟩ := ih (cb.record_failure t) hInv1
        refine ⟨by rw [hrun]; exact ha, ?_, ?_⟩
        · rw [hrun]
          simpa [CircuitBreaker.record_failure] using hb
        · rw [hrun]
          simpa [consecFrom, CircuitBreaker.record_failure] using hcnt
      · -- recorded success
        have hc := call_not_open_true cb t hne
        have hrun : cb.run ((t, true) :: rest) =
            ((cb.record_success.run rest).1, true :: (cb.record_success.run rest).2) := by
          simp [CircuitBreaker.run, hc]
        have hInv1 : CBInv cb.record_success := by
          refine ⟨hT, ?_, ?_⟩
          · simp [CircuitBreaker.record_success, hS]
          · simp [CircuitBreaker.record_success, hS]
            omega
        obtain ⟨ha, hb, hcnt⟩ := ih cb.record_success hInv1
        refine ⟨by rw [hrun]; exact ha, ?_, ?_⟩
        · rw [hrun]
          simpa [CircuitBreaker.record_success] using hb
        · rw [hrun]
          simpa [consecFrom, CircuitBreaker.record_success] using hcnt
    · -- OPEN between calls
      have hge : cb.failure_threshold ≤ cb.failures := by
        by_contra hlt
        have := hiff.mp (by omega)
        rw [this] at hS
        cases hS
      by_cases helap : t - cb.last_failure_time > (cb.reset_timeout : Int)
      · cases o
        · -- failed HALF_OPEN trial
          have hc := call_open_elapsed_false cb t hS helap
          set cb1 : CircuitBreaker :=
            { cb with state := .OPEN, failures := cb.failures + 1, last_failure_time := t } with hcb1
          have hrun : cb.run ((t, false) :: rest) =
              ((cb1.run rest).1, false :: (cb1.run rest).2) := by
            simp [CircuitBreaker.run, hc]
          have hInv1 : CBInv cb1 := by
            refine ⟨hT, Or.inr rfl, ?_⟩
            simp [hcb1]
            omega
          obtain ⟨ha, hb, hcnt⟩ := ih cb1 hInv1
          exact ⟨by rw [hrun]; exact ha, by rw [hrun]; exact hb,
            by rw [hrun]; simpa [consecFrom, hcb1] using hcnt⟩
        · -- successful HALF_OPEN trial
          have hc := call_open_elapsed_true cb t hS helap
          set cb1 : CircuitBreaker := { cb with state := .CLOSED, failures := 0 } with hcb1
          have hrun : cb.run ((t, true) :: rest) =
              ((cb1.run rest).1, true :: (cb1.run rest).2) := by
            simp [CircuitBreaker.run, hc]
          have hInv1 : CBInv cb1 := by
            refine ⟨hT, Or.inl rfl, ?_⟩
            simp [hcb1]
            omega
          obtain ⟨ha, hb, hcnt⟩ := ih cb1 hInv1
          exact ⟨by rw [hrun]; exact ha, by rw [hrun]; exact hb,
            by rw [hrun]; simpa [consecFrom, hcb1] using hcnt⟩
      · -- rejected while OPEN: nothing recorded, breaker unchanged
        have hc := call_open_fresh cb t o hS helap
        have hrun : cb.run ((t, o) :: rest) = cb.run rest := by
          simp [CircuitBreaker.run, hc]
        obtain ⟨ha, hb, hcnt⟩ := ih cb ⟨hT, Or.inr hS, hiff⟩
        exact ⟨by rw [hrun]; exact ha, by rw [hrun]; exact hb, by rw [hrun]; exact hcnt⟩

/-! ## Claim theorems -/

/-- Claim C1: for every breaker with failure threshold `T ≥ 1`, after any
trace of calls, the breaker is CLOSED exactly when the recorded outcomes hold
fewer than `T` consecutive failures since the last recorded success, and is
OPEN exactly when they hold `T` or more — so recording the `T`-th consecutive
failure transitions the breaker to OPEN. -/
theorem circuit_breaker_threshold (th rt : Nat) (hth : 1 ≤ th)
    (trace : List (Int × Bool)) :
    (consecFrom 0 ((CircuitBreaker.init th rt).run trace).2 < th ↔
      ((CircuitBreaker.init th rt).run trace).1.state = .CLOSED) ∧
    (th ≤ consecFrom 0 ((CircuitBreaker.init th rt).run trace).2 ↔
      ((CircuitBreaker.init th rt).run trace).1.state = .OPEN) := by
  have h0 : CBInv (CircuitBreaker.init th rt) := by
    refine ⟨hth, Or.inl rfl, ?_⟩
    simpa [CircuitBreaker.init] using hth
  obtain ⟨⟨hT, hCO, hiff⟩, hth2, hf⟩ := cbRun_spec trace (CircuitBreaker.init th rt) h0
  rw [hth2] at hiff
  have hthe : (CircuitBreaker.init th rt).failure_threshold = th := rfl
  rw [hthe] at hiff
  have hf0 : ((CircuitBreaker.init th rt).run trace).1.failures =
      consecFrom 0 ((CircuitBreaker.init th rt).run trace).2 := hf
  rw [← hf0]
  refine ⟨hiff, ?_⟩
  rcases hCO with hC | hO
  · rw [hC]
    constructor
    · intro hge
      exact absurd (hiff.mpr hC) (by omega)
    · intro hcon
      cases hcon
  · rw [hO]
    constructor
    · intro _
      rfl
    · intro _
      by_contra hlt
      have := hiff.mp (by omega)
      rw [this] at hO
      cases hO

/-- Witness for C1 at threshold 2 and the one-failure trace. -/
theorem circuit_breaker_threshold_witness :
    (consecFrom 0 ((CircuitBreaker.init 2 5).run [(0, false)]).2 < 2 ↔
      ((CircuitBreaker.init 2 5).run [(0, false)]).1.state = .CLOSED) ∧
    (2 ≤ consecFrom 0 ((CircuitBreaker.init 2 5).run [(0, false)]).2 ↔
      ((CircuitBreaker.init 2 5).run [(0, false)]).1.state = .OPEN) :=
  circuit_breaker_threshold 2 5 (by decide) [(0, false)]

/-- Claim C2: while OPEN with at most `reset_timeout` elapsed since the last
failure, a breaker-wrapped call is rejected with the estimated remaining wait
`reset_timeout - elapsed`, the wrapped operation is never invoked, and the
breaker (failure counter and last-failure time included) is unchanged; at the
manager level, `call_tool` then returns a structured `success = false` result
without recording a failure. -/
theorem cb_open_rejects_unchanged (th rt f : Nat) (lt now : Int) (o : Bool)
    (k : ClientKind) (op : Nat → Except PyError Nat) (jit : Nat → ℚ)
    (h : now - lt ≤ (rt : Int)) :
    CircuitBreaker.call ⟨th, rt, f, lt, .OPEN⟩ now o =
      (⟨th, rt, f, lt, .OPEN⟩, .rejected ((rt : Int) - (now - lt))) ∧
    (CircuitBreaker.call ⟨th, rt, f, lt, .OPEN⟩ now o).2.invocations = 0 ∧
    call_tool k ⟨th, rt, f, lt, .OPEN⟩ now op jit =
      (⟨th, rt, f, lt, .OPEN⟩,
       { success := false, content := .cbOpenMsg ((rt : Int) - (now - lt)) }, 0) := by
  have hng : ¬ now - lt > (rt : Int) := not_lt.mpr h
  have hmax : max 0 ((rt : Int) - (now - lt)) = (rt : Int) - (now - lt) :=
    max_eq_right (by omega)
  have hrej := call_open_fresh ⟨th, rt, f, lt, .OPEN⟩ now o rfl hng
  rw [hmax] at hrej
  refine ⟨hrej, by rw [hrej]; rfl, ?_⟩
  simp only [call_tool, CircuitBreaker.phase1, CircuitBreaker.check_state_transition]
  simp [hng, hmax]

/-- Witness for C2: breaker opened at time 0 with timeout 30, probed at
time 10. -/
theorem cb_open_rejects_unchanged_witness :
    CircuitBreaker.call ⟨3, 30, 3, 0, .OPEN⟩ 10 true =
      (⟨3, 30, 3, 0, .OPEN⟩, .rejected 20) ∧
    (CircuitBreaker.call ⟨3, 30, 3, 0, .OPEN⟩ 10 true).2.invocations = 0 ∧
    call_tool .localStdio ⟨3, 30, 3, 0, .OPEN⟩ 10 (fun _ => .ok 1) (fun _ => 0) =
      (⟨3, 30, 3, 0, .OPEN⟩, { success := false, content := .cbOpenMsg 20 }, 0) :=
  cb_open_rejects_unchanged 3 30 3 0 10 true .localStdio (fun _ => .ok 1) (fun _ => 0)
    (by decide)

/-- Claim C3 (counterexample to the single-trial guarantee): with threshold 1
and reset timeout 10, a breaker opened at time 0 admits a first call at
time 11 (transitioning to HALF_OPEN), and while that trial is still
outstanding a second concurrent call also passes the locked state check and
is invoked rather than rejected — `CircuitBreaker.__call__` releases the lock
before awaiting the wrapped operation and HALF_OPEN is only rejected when the
state is OPEN, so nothing marks the trial as outstanding. -/
theorem half_open_admits_second_concurrent_trial :
    (CircuitBreaker.phase1 ⟨1, 10, 1, 0, .OPEN⟩ 11).2 = none ∧
    (CircuitBreaker.phase1 ⟨1, 10, 1, 0, .OPEN⟩ 11).1.state = .HALF_OPEN ∧
    (CircuitBreaker.phase1 (CircuitBreaker.phase1 ⟨1, 10, 1, 0, .OPEN⟩ 11).1 11).2 = none := by
  decide

/-- Claim C4: recording a HALF_OPEN trial success closes the circuit and
zeroes the failure counter; recording a HALF_OPEN trial failure reopens the
circuit and restamps the last-failure time with the current time; and any
recorded success while CLOSED zeroes the failure counter and stays CLOSED. -/
theorem cb_trial_resolution (th rt f : Nat) (lt now : Int) :
    CircuitBreaker.call ⟨th, rt, f, lt, .HALF_OPEN⟩ now true =
      (⟨th, rt, 0, lt, .CLOSED⟩, .invoked true) ∧
    CircuitBreaker.call ⟨th, rt, f, lt, .HALF_OPEN⟩ now false =
      (⟨th, rt, f + 1, now, .OPEN⟩, .invoked false) ∧
    (CircuitBreaker.call ⟨th, rt, f, lt, .CLOSED⟩ now true).1.failures = 0 ∧
    (CircuitBreaker.call ⟨th, rt, f, lt, .CLOSED⟩ now true).1.state = .CLOSED := by
  refine ⟨?_, ?_, ?_, ?_⟩ <;>
    simp [CircuitBreaker.call, CircuitBreaker.phase1, CircuitBreaker.check_state_transition,
      CircuitBreaker.record_success, CircuitBreaker.record_failure]

/-- Claim C5 (divergence): a single timed-out `call_tool` against a local
client records two breaker failures, not one — once inside
`CircuitBreaker.__call__`'s exception path and once more in `call_tool`'s
`asyncio.TimeoutError` handler — while returning the structured
`success = false` timeout result after one invocation of the wrapped call. -/
theorem call_tool_timeout_records_two_failures :
    call_tool .localStdio (CircuitBreaker.init 3 30) 1 (fun _ => .error .timeoutErr)
        (fun _ => 0) =
      ({ failure_threshold := 3, reset_timeout := 30, failures := 2,
         last_failure_time := 1, state := .CLOSED },
       { success := false, content := .timeoutMsg }, 1) := by
  decide

/-- Claim C10 (divergence): `__aexit__` clears the client map and resets every
failure counter, but `record_success` only closes a HALF_OPEN circuit — a
breaker that is OPEN at shutdown stays OPEN. -/
theorem aexit_leaves_open_breaker_open :
    ManagerState.aexit { clients := [7], breakers := [⟨1, 30, 1, 0, .OPEN⟩] } =
      { clients := [], breakers := [⟨1, 30, 0, 0, .OPEN⟩] } ∧
    (ManagerState.aexit { clients := [7], breakers := [⟨1, 30, 1, 0, .OPEN⟩] }).breakers.map
        CircuitBreaker.state ≠ [CBState.CLOSED] := by
  decide

/-- When every invocation fails with an error kind in the retryable set, the
loop sleeps the prescribed backoff schedule between attempts and exhausts all
remaining iterations, ending with that error. -/
lemma retryGo_all_fail (op : Nat → Except PyError Nat) (catchE : PyError → Bool)
    (d maxd : ℚ) (jit : Nat → ℚ) (e : PyError) (he : catchE e = true)
    (hop : ∀ i, op i = .error e) :
    ∀ k i, retryGo op catchE d maxd jit (k + 1) i =
      (.error e, k + 1, specSleeps d maxd jit k i) := by
  intro k
  induction k with
  | zero =>
    intro i
    simp [retryGo, hop i, he, specSleeps]
  | succ k ihk =>
    intro i
    have hstep : retryGo op catchE d maxd jit (k + 1 + 1) i =
        ((retryGo op catchE d maxd jit (k + 1) (i + 1)).1,
         (retryGo op catchE d maxd jit (k + 1) (i + 1)).2.1 + 1,
         min (d * 2 ^ i + jit i) maxd ::
           (retryGo op catchE d maxd jit (k + 1) (i + 1)).2.2) := by
      conv_lhs => rw [retryGo]
      simp [hop i, he]
    rw [hstep, ihk (i + 1)]
    simp [specSleeps]

/-- Claim C6 (amended): `retry_with_backoff` invokes the operation; when every
attempt fails with a retryable error kind it sleeps
`min(initial_delay * 2^attempt + uniform(0, initial_delay * jitter), max_delay)`
between attempts, makes `max_retries + 1` total attempts (one initial attempt
plus up to `max_retries` retries), and re-raises the last error on
exhaustion; an error kind outside the retryable set is re-raised immediately
after a single invocation with no sleeping; a first-attempt success is
returned after a single invocation. -/
theorem retry_with_backoff_behaviour (mr : Nat) (d maxd : ℚ) (jit : Nat → ℚ)
    (catchE : PyError → Bool) (op op2 op3 : Nat → Except PyError Nat)
    (e e2 : PyError) (v : Nat)
    (he : catchE e = true) (hop : ∀ i, op i = .error e)
    (he2 : catchE e2 = false) (hop2 : op2 0 = .error e2)
    (hop3 : op3 0 = .ok v) :
    retry_with_backoff op mr d maxd jit catchE =
      (.error e, mr + 1, specSleeps d maxd jit mr 0) ∧
    retry_with_backoff op2 mr d maxd jit catchE = (.error e2, 1, []) ∧
    retry_with_backoff op3 mr d maxd jit catchE = (.ok v, 1, []) := by
  refine ⟨retryGo_all_fail op catchE d maxd jit e he hop mr 0, ?_, ?_⟩
  · simp [retry_with_backoff, retryGo, hop2, he2]
  · simp [retry_with_backoff, retryGo, hop3]

/-- Witness for C6 (amended): two retries at delays 1 and 2, then the
connection error is re-raised after three attempts; a non-retryable error and
a success each return after one attempt. -/
theorem retry_with_backoff_behaviour_witness :
    retry_with_backoff (fun _ => .error .connectionErr) 2 1 10 (fun _ => 0) defaultCatch =
      (.error .connectionErr, 3, specSleeps 1 10 (fun _ => 0) 2 0) ∧
    retry_with_backoff (fun _ => .error .otherErr) 2 1 10 (fun _ => 0) defaultCatch =
      (.error .otherErr, 1, []) ∧
    retry_with_backoff (fun _ => .ok 5) 2 1 10 (fun _ => 0) defaultCatch = (.ok 5, 1, []) :=
  retry_with_backoff_behaviour 2 1 10 (fun _ => 0) defaultCatch _ _ _ .connectionErr
    .otherErr 5 rfl (fun _ => rfl) rfl rfl rfl

/-- Claim C6 (counterexample to "up to maxAttempts total attempts" with the
code's `max_retries` parameter): with `max_retries = 1` an always-failing
retryable operation is invoked twice, exceeding one total attempt. -/
theorem retry_exceeds_stated_max_attempts :
    (retry_with_backoff (fun _ => .error .connectionErr) 1 1 10 (fun _ => 0)
        defaultCatch).2.1 = 2 ∧
    ¬ ((retry_with_backoff (fun _ => .error .connectionErr) 1 1 10 (fun _ => 0)
        defaultCatch).2.1 ≤ 1) := by
  constructor
  · rfl
  · intro hle
    have h2 : (retry_with_backoff (fun _ => .error .connectionErr) 1 1 10 (fun _ => 0)
        defaultCatch).2.1 = 2 := rfl
    omega

/-- Claim C7: `call_tool` applies retry-with-backoff only to the remote
placeholder client; a local stdio client's call is wrapped in the breaker and
timeout alone, so the underlying operation runs at most once per logical call
(exactly once when the breaker admits the call), while an admitted remote
call runs it as many times as `retry_with_backoff` with `max_retries = 3`
does. -/
theorem call_tool_retry_only_remote (cb : CircuitBreaker) (now : Int)
    (op : Nat → Except PyError Nat) (jit : Nat → ℚ) :
    (call_tool .localStdio cb now op jit).2.2 ≤ 1 ∧
    ((cb.phase1 now).2 = none → (call_tool .localStdio cb now op jit).2.2 = 1) ∧
    ((cb.phase1 now).2 = none →
      (call_tool .remotePlaceholder cb now op jit).2.2 =
        (retry_with_backoff op 3 1 10 jit defaultCatch).2.1) := by
  rcases hp : cb.phase1 now with ⟨cb1, r⟩
  cases r with
  | some r0 =>
    refine ⟨?_, ?_, ?_⟩
    · simp [call_tool, hp]
    · intro hnone
      simp at hnone
    · intro hnone
      simp at hnone
  | none =>
    refine ⟨?_, fun _ => ?_, fun _ => ?_⟩
    · rcases ho : op 0 with e | v
      · by_cases he : e = .timeoutErr <;> simp [call_tool, hp, ho, he]
      · simp [call_tool, hp, ho]
    · rcases ho : op 0 with e | v
      · by_cases he : e = .timeoutErr <;> simp [call_tool, hp, ho, he]
      · simp [call_tool, hp, ho]
    · rcases hr : retry_with_backoff op 3 1 10 jit defaultCatch with ⟨res, n, sl⟩
      rcases res with e | v
      · by_cases he : e = .timeoutErr <;> simp [call_tool, hp, hr, he]
      · simp [call_tool, hp, hr]

/-- Witness for C7 at a fresh breaker with an always-failing operation. -/
theorem call_tool_retry_only_remote_witness :
    (call_tool .localStdio (CircuitBreaker.init 3 30) 0
        (fun _ => .error .connectionErr) (fun _ => 0)).2.2 ≤ 1 ∧
    (call_tool .localStdio (CircuitBreaker.init 3 30) 0
        (fun _ => .error .connectionErr) (fun _ => 0)).2.2 = 1 ∧
    (call_tool .remotePlaceholder (CircuitBreaker.init 3 30) 0
        (fun _ => .error .connectionErr) (fun _ => 0)).2.2 =
      (retry_with_backoff (fun _ => .error .connectionErr) 3 1 10 (fun _ => 0)
        defaultCatch).2.1 := by
  have h := call_tool_retry_only_remote (CircuitBreaker.init 3 30) 0
    (fun _ => .error .connectionErr) (fun _ => 0)
  exact ⟨h.1, h.2.1 (by decide), h.2.2 (by decide)⟩

/-- Claim C9: on a live subprocess, `disconnect` terminates, waits out at most
the 5-second grace period, and kills-then-reaps only when the process did not
exit within the grace period; afterwards the client holds no process handle
and no session, and `disconnect` is idempotent from any state — a second call
changes nothing and performs no process action. -/
theorem stdio_disconnect_lifecycle (c : StdioClient) (p : ProcHandle)
    (hp : c.proc = some p) (hlive : p.returncode = none) :
    (p.exitsInGrace = true →
      c.disconnect = ({ proc := none, session := false },
        [.terminate, .waitGrace 5])) ∧
    (p.exitsInGrace = false →
      c.disconnect = ({ proc := none, session := false },
        [.terminate, .waitGrace 5, .kill, .waitReap])) ∧
    c.disconnect.1.proc = none ∧ c.disconnect.1.session = false ∧
    (∀ c2 : StdioClient, StdioClient.disconnect c2.disconnect.1 = (c2.disconnect.1, [])) := by
  refine ⟨?_, ?_, ?_, ?_, ?_⟩
  · intro hg
    simp [StdioClient.disconnect, hp, hlive, hg]
  · intro hg
    simp [StdioClient.disconnect, hp, hlive, hg]
  · cases hg : p.exitsInGrace <;> simp [StdioClient.disconnect, hp, hlive, hg]
  · cases hg : p.exitsInGrace <;> simp [StdioClient.disconnect, hp, hlive, hg]
  · intro c2
    rcases c2 with ⟨pr, se⟩
    rcases pr with _ | p2
    · cases se <;> simp [StdioClient.disconnect]
    · rcases hrc : p2.returncode with _ | v
      · cases hg : p2.exitsInGrace <;> simp [StdioClient.disconnect, hrc, hg]
      · cases se <;> simp [StdioClient.disconnect, hrc]

/-- Witness for C9: a connected client whose process ignores the termination
request, forcing the kill-and-reap path. -/
theorem stdio_disconnect_lifecycle_witness :
    StdioClient.disconnect
        { proc := some { returncode := none, exitsInGrace := false }, session := true } =
      ({ proc := none, session := false },
       [.terminate, .waitGrace 5, .kill, .waitReap]) :=
  (stdio_disconnect_lifecycle
      { proc := some { returncode := none, exitsInGrace := false }, session := true }
      { returncode := none, exitsInGrace := false } rfl rfl).2.1 rfl

/-- Claim C8: the aggregated `list_tools` is a total function returning the
concatenation of the per-server contributions (no single server's failure
aborts the aggregate); a server whose breaker is OPEN is skipped with its
breaker untouched (no failure recorded for the breaker-open path); an
admitted healthy server contributes its tools; an admitted server whose call
times out or fails with a transport error contributes nothing and has a
failure recorded against its breaker. -/
theorem list_tools_partial_results (now : Int) (servers : List ServerEntry) :
    list_tools now servers =
      (servers.map (fun e => ((listToolsServer now e).1).getD [])).flatten ∧
    (∀ e : ServerEntry, e.cb.state = .OPEN → listToolsServer now e = (none, e.cb)) ∧
    (∀ (e : ServerEntry) (ts : List Tool), e.cb.state ≠ .OPEN →
      (e.isStdio = false ∨ e.connected = true) → e.behavior = .healthy ts →
      (listToolsServer now e).1 = some ts) ∧
    (∀ e : ServerEntry, e.cb.state ≠ .OPEN → (e.isStdio = false ∨ e.connected = true) →
      (e.behavior = .timesOut ∨ e.behavior = .transportErr) →
      (listToolsServer now e).1 = none ∧
      e.cb.failures < (listToolsServer now e).2.failures) := by
  refine ⟨?_, ?_, ?_, ?_⟩
  · induction servers with
    | nil => rfl
    | cons e rest ihr =>
      simp only [list_tools, List.map_cons, List.flatten_cons, ihr]
      rcases (listToolsServer now e).1 with _ | ts <;> simp
  · intro e hopen
    simp [listToolsServer, hopen]
  · intro e ts hnopen hconn hb
    have hskip : ¬ (e.isStdio = true ∧ e.connected = false) := by
      rcases hconn with hc | hc <;> simp [hc]
    have hph : e.cb.phase1 now = (e.cb, none) := by
      simp [CircuitBreaker.phase1, CircuitBreaker.check_state_transition, hnopen]
    simp [listToolsServer, hnopen, hskip, hph, hb]
  · intro e hnopen hconn hb
    have hskip : ¬ (e.isStdio = true ∧ e.connected = false) := by
      rcases hconn with hc | hc <;> simp [hc]
    have hph : e.cb.phase1 now = (e.cb, none) := by
      simp [CircuitBreaker.phase1, CircuitBreaker.check_state_transition, hnopen]
    rcases hb with hb | hb
    all_goals refine ⟨by simp [listToolsServer, hnopen, hskip, hph, hb], ?_⟩
    all_goals simp [listToolsServer, hnopen, hskip, hph, hb, CircuitBreaker.record_failure]
    all_goals omega

/-- Witness for C8: the spec's example — server A healthy, server B with an
OPEN breaker, server C timing out — returns exactly A's tools, leaves B's
breaker untouched, and records failures against C's breaker. -/
theorem list_tools_partial_results_witness :
    list_tools 0
        [{ cb := CircuitBreaker.init 3 30, isStdio := false, connected := true,
           behavior := .healthy [⟨1⟩, ⟨2⟩] },
         { cb := ⟨3, 30, 3, 0, .OPEN⟩, isStdio := false, connected := true,
           behavior := .healthy [⟨9⟩] },
         { cb := CircuitBreaker.init 3 30, isStdio := true, connected := true,
           behavior := .timesOut }] = [⟨1⟩, ⟨2⟩] ∧
    listToolsServer 0
        { cb := ⟨3, 30, 3, 0, .OPEN⟩, isStdio := false, connected := true,
          behavior := .healthy [⟨9⟩] } =
      (none, ⟨3, 30, 3, 0, .OPEN⟩) ∧
    (listToolsServer 0
        { cb := CircuitBreaker.init 3 30, isStdio := true, connected := true,
          behavior := .timesOut }).1 = none ∧
    (CircuitBreaker.init 3 30).failures <
      (listToolsServer 0
        { cb := CircuitBreaker.init 3 30, isStdio := true, connected := true,
          behavior := .timesOut }).2.failures := by
  have h := list_tools_partial_results 0
    [{ cb := CircuitBreaker.init 3 30, isStdio := false, connected := true,
       behavior := .healthy [⟨1⟩, ⟨2⟩] },
     { cb := ⟨3, 30, 3, 0, .OPEN⟩, isStdio := false, connected := true,
       behavior := .healthy [⟨9⟩] },
     { cb := CircuitBreaker.init 3 30, isStdio := true, connected := true,
       behavior := .timesOut }]
  refine ⟨h.1.trans (by decide), ?_, ?_, ?_⟩
  · exact h.2.1 ⟨⟨3, 30, 3, 0, .OPEN⟩, false, true, .healthy [⟨9⟩]⟩ rfl
  · exact (h.2.2.2 ⟨CircuitBreaker.init 3 30, true, true, .timesOut⟩
      (by decide) (Or.inr rfl) (Or.inl rfl)).1
  · exact (h.2.2.2 ⟨CircuitBreaker.init 3 30, true, true, .timesOut⟩
      (by decide) (Or.inr rfl) (Or.inl rfl)).2
